import Mathlib

/-!
Verification of the dispatcher module of the jades_force repository
(src/dispatcher.py): the SuperScene checkout/checkin protocol, the
circular-patch selection, the seed weighting, and the MPIQueue worker
queue, shallowly embedded in Lean.

Conventions used throughout the embedding:
* numpy structured-array rows become the structure SourceRow; the
  catalog (the sourcecat array) is a total function Nat -> SourceRow
  together with a length n.  numpy fancy assignment arr[field][inds] = v
  becomes a pointwise conditional update on index membership, which also
  matches numpy's buffered semantics of arr[field][inds] += v.
* python floats are modelled exactly: catalog data and configuration
  radii by rationals, derived Euclidean distances by real numbers.
* fallible code returns Option or Except, or a dedicated result
  inductive with a constructor per python outcome (including raised
  exceptions).
-/

set_option autoImplicit false

namespace JadesForce

/-- A row of the sourcecat structured array.  `pars` collects the values
of the PAR_COLS parameter columns in order; `x`, `y` are the cached
scene coordinates of the row (the row of scene_coordinates), `ra`, `dec`
the sky position, `rhalf` the half-light radius. -/
structure SourceRow where
  source_index : Nat
  ra : ℚ
  dec : ℚ
  x : ℚ
  y : ℚ
  rhalf : ℚ
  pars : List ℚ
  n_iter : ℤ
  n_patch : ℤ
  is_active : Bool
  is_valid : Bool
deriving DecidableEq

/-- The mutable state of a SuperScene object: the catalog rows, the
occupancy counters, and the configuration attributes set in
SuperScene.__init__ that the dispatch path reads. -/
structure SuperScene where
  n : Nat
  row : Nat → SourceRow
  n_active : ℤ
  n_fixed : ℤ
  target_niter : ℤ
  maxactive_fraction : ℚ
  maxradius : ℚ
  minradius : ℚ
  maxactive : Nat
  boundary_radius : ℚ
  nscale : ℚ

/-- SuperScene.__init__ (dispatcher.py lines 46-73): records the
configuration arguments on self.  The catalog itself comes from ingest
(external file parsing), modelled here by the `n`/`row` arguments.  Note
line 70 assigns the literal 3 to self.nscale; the `nscale` constructor
argument is never read. -/
def superscene_init (n : Nat) (row : Nat → SourceRow) (target_niter : ℤ)
    (maxactive_fraction : ℚ) (maxactive_per_patch : Nat) (nscale : ℚ)
    (boundary_radius maxradius minradius : ℚ) : SuperScene :=
  { n := n
    row := row
    n_active := 0
    n_fixed := 0
    target_niter := target_niter
    maxactive_fraction := maxactive_fraction
    maxradius := maxradius
    minradius := minradius
    maxactive := maxactive_per_patch
    boundary_radius := boundary_radius
    nscale := 3 }

/-- The flag mutations of SuperScene.checkout_region (lines 187-191):
sourcecat["is_active"][active_inds] = True,
sourcecat["is_valid"][active_inds] = False,
sourcecat["is_valid"][fixed_inds] = False, and the two occupancy-counter
increments. -/
def checkout_apply (s : SuperScene) (active_inds fixed_inds : List Nat) :
    SuperScene :=
  { s with
    row := fun i =>
      let r0 := s.row i
      let r1 := if i ∈ active_inds then { r0 with is_active := true } else r0
      let r2 := if i ∈ active_inds then { r1 with is_valid := false } else r1
      if i ∈ fixed_inds then { r2 with is_valid := false } else r2
    n_active := s.n_active + active_inds.length
    n_fixed := s.n_fixed + fixed_inds.length }

/-- The catalog mutations of SuperScene.checkin_region (lines 209-221),
given the active and fixed row tables already extracted: the parameter
columns of each active index are overwritten with the row's values
(fancy assignment: with duplicate indices the last row wins, hence
getLast?), n_iter is increased by niter, is_active cleared, n_patch
increased by 1 and is_valid set for the active indices, is_valid set for
the fixed indices, and the occupancy counters decremented. -/
def checkin_apply (s : SuperScene) (active fixed : List SourceRow)
    (niter : ℤ) : SuperScene :=
  { s with
    row := fun i =>
      let r0 := s.row i
      let r1 := { r0 with pars := match (active.filter
          (fun a => decide (a.source_index = i))).getLast? with
        | some a => a.pars
        | none => r0.pars }
      let r2 := if i ∈ active.map SourceRow.source_index then
          { r1 with n_iter := r1.n_iter + niter, is_active := false,
                    n_patch := r1.n_patch + 1, is_valid := true }
        else r1
      if i ∈ fixed.map SourceRow.source_index then
        { r2 with is_valid := true }
      else r2
    n_active := s.n_active - active.length
    n_fixed := s.n_fixed - fixed.length }

/-- A structured-array argument to checkin_region.  `hasIndexField`
records whether the array's dtype carries the "source_index" column;
looking the column up on an array without it raises KeyError. -/
structure RowTable where
  hasIndexField : Bool
  rows : List SourceRow

/-- SuperScene.checkin_region (lines 195-221).  The first component is
the python outcome (`Except.error ()` models the KeyError that the
try/except re-raises when either table lacks the source_index column),
the second the state of self after the call returns or the exception
escapes.  Both column lookups happen inside the try block before any
mutation, so on error the state is returned unchanged; no check that the
supplied indices are currently checked out is performed. -/
def checkin_region (s : SuperScene) (active fixed : RowTable)
    (niter : ℤ) : Except Unit Unit × SuperScene :=
  if active.hasIndexField = false ∨ fixed.hasIndexField = false then
    (Except.error (), s)
  else
    (Except.ok (), checkin_apply s active.rows fixed.rows niter)

/-- SuperScene.draw_center (lines 292-315).  `randomDraw` is the
outcome of np.random.choice(n_sources, p=seed_weight()); python's
`if seed_index:` treats both None and the integer 0 as false, so the
random draw is used for seed_index = some 0 as well.  Returns the
(ra, dec) of the chosen row. -/
def draw_center (s : SuperScene) (seed_index : Option Nat)
    (randomDraw : Nat) : ℚ × ℚ :=
  let k := match seed_index with
    | some si => if si = 0 then randomDraw else si
    | none => randomDraw
  ((s.row k).ra, (s.row k).dec)

section ClaimC10

/-- Claim C10: the nscale value supplied to the SuperScene constructor
is ignored — for every constructor argument value the stored
self.nscale field is the constant 3, so patch selection reads 3
regardless of the caller's choice. -/
theorem C10_nscale_ignored (n : Nat) (row : Nat → SourceRow)
    (target_niter : ℤ) (maxactive_fraction : ℚ)
    (maxactive_per_patch : Nat) (nscale : ℚ)
    (boundary_radius maxradius minradius : ℚ) :
    (superscene_init n row target_niter maxactive_fraction
      maxactive_per_patch nscale boundary_radius maxradius
      minradius).nscale = 3 :=
  rfl

end ClaimC10

section ClaimC5

/-- The concrete two-row catalog refuting claim C5: row 0 and row 1
have different sky positions. -/
def C5row : Nat → SourceRow := fun i =>
  { source_index := i
    ra := 10 * (i + 1)
    dec := 20 * (i + 1)
    x := 0
    y := 0
    rhalf := 1/10
    pars := []
    n_iter := 0
    n_patch := 0
    is_active := false
    is_valid := true }

def C5scene : SuperScene :=
  superscene_init 2 C5row 200 (1/10) 20 3 8 5 1

/-- Claim C5 counterexample: supplying the explicit seed index 0 does
not bypass the weighted random draw.  With the random draw landing on
row 1, draw_center with seed_index = some 0 returns row 1's position,
not row 0's, because python's `if seed_index:` is false for 0. -/
theorem C5_seed_zero_cex :
    draw_center C5scene (some 0) 1 = ((C5scene.row 1).ra, (C5scene.row 1).dec)
      ∧ draw_center C5scene (some 0) 1 ≠ ((C5scene.row 0).ra, (C5scene.row 0).dec) := by
  refine ⟨rfl, ?_⟩
  simp only [draw_center, C5scene, C5row, superscene_init, ne_eq,
    Prod.mk.injEq, not_and]
  norm_num

/-- Claim C5 amended: for every explicitly supplied nonzero seed index,
draw_center returns the position of exactly that catalog entry,
bypassing the weighted random draw; a supplied index 0 instead falls
through to the random draw. -/
theorem C5_explicit_seed (s : SuperScene) (si randomDraw : Nat)
    (h : si ≠ 0) :
    draw_center s (some si) randomDraw = ((s.row si).ra, (s.row si).dec) := by
  unfold draw_center
  simp [h]

/-- Witness for C5_explicit_seed at seed index 1 on the concrete
catalog: the hypothesis 1 ≠ 0 is discharged and the drawn position is
row 1's. -/
theorem C5_explicit_seed_witness :
    (1 : Nat) ≠ 0 ∧
      draw_center C5scene (some 1) 0 = ((C5scene.row 1).ra, (C5scene.row 1).dec) :=
  ⟨by decide, C5_explicit_seed C5scene 1 0 (by decide)⟩

end ClaimC5

section ListHelpers

/-- If the images of the list's elements under f are pairwise distinct
and a is in the list, filtering for elements with a's image returns
exactly [a]. -/
theorem filter_eq_singleton_of_nodup {α β : Type} [DecidableEq β]
    (f : α → β) (l : List α) (a : α) (hnd : (l.map f).Nodup) (ha : a ∈ l) :
    l.filter (fun x => decide (f x = f a)) = [a] := by
  induction l with
  | nil => cases ha
  | cons x t ih =>
    rw [List.map_cons, List.nodup_cons] at hnd
    rcases List.mem_cons.mp ha with rfl | hat
    · rw [List.filter_cons, if_pos (by simp)]
      have ht : t.filter (fun y => decide (f y = f a)) = [] := by
        rw [List.filter_eq_nil_iff]
        intro y hy
        simp only [decide_eq_true_eq]
        intro heq
        exact hnd.1 (heq ▸ List.mem_map_of_mem f hy)
      rw [ht]
    · have hne : ¬ (f x = f a) := by
        intro heq
        exact hnd.1 (heq ▸ List.mem_map_of_mem f hat)
      rw [List.filter_cons, if_neg (by simpa using hne)]
      exact ih hnd.2 hat

/-- Filtering for an image value that no element of the list has
returns the empty list. -/
theorem filter_eq_nil_of_not_mem_map {α β : Type} [DecidableEq β]
    (f : α → β) (l : List α) (j : β) (hj : j ∉ l.map f) :
    l.filter (fun x => decide (f x = j)) = [] := by
  rw [List.filter_eq_nil_iff]
  intro x hx
  simp only [decide_eq_true_eq]
  intro heq
  exact hj (heq ▸ List.mem_map_of_mem f hx)

end ListHelpers

section ClaimC4

/-- Claim C4: checking a region back in with row tables carrying the
index column, pairwise-distinct active indices and fixed indices
disjoint from the active ones (which is how checkout hands rows out),
succeeds, overwrites each active row's catalog parameters with the
row's values, adds exactly d to its n_iter, exactly 1 to its n_patch,
clears is_active and sets is_valid; each fixed index only has is_valid
set, every other field unchanged. -/
theorem C4_checkin_effect (s : SuperScene) (a f : RowTable) (d : ℤ)
    (ha : a.hasIndexField = true) (hf : f.hasIndexField = true)
    (hnd : (a.rows.map SourceRow.source_index).Nodup)
    (hdisj : ∀ j ∈ f.rows.map SourceRow.source_index,
      j ∉ a.rows.map SourceRow.source_index) :
    (checkin_region s a f d).1 = Except.ok () ∧
    (∀ r ∈ a.rows, (checkin_region s a f d).2.row r.source_index =
      { s.row r.source_index with
        pars := r.pars
        n_iter := (s.row r.source_index).n_iter + d
        n_patch := (s.row r.source_index).n_patch + 1
        is_active := false
        is_valid := true }) ∧
    (∀ r ∈ f.rows, (checkin_region s a f d).2.row r.source_index =
      { s.row r.source_index with is_valid := true }) := by
  have hcond : ¬ (a.hasIndexField = false ∨ f.hasIndexField = false) := by
    simp [ha, hf]
  rw [checkin_region, if_neg hcond]
  refine ⟨rfl, ?_, ?_⟩
  · intro r hr
    have hmem : r.source_index ∈ a.rows.map SourceRow.source_index :=
      List.mem_map_of_mem SourceRow.source_index hr
    have hnotf : r.source_index ∉ f.rows.map SourceRow.source_index :=
      fun hc => hdisj _ hc hmem
    have hfilter := filter_eq_singleton_of_nodup SourceRow.source_index
      a.rows r hnd hr
    simp only [checkin_apply, hfilter, List.getLast?_singleton,
      if_pos hmem, if_neg hnotf]
  · intro r hr
    have hmem : r.source_index ∈ f.rows.map SourceRow.source_index :=
      List.mem_map_of_mem SourceRow.source_index hr
    have hnota : r.source_index ∉ a.rows.map SourceRow.source_index :=
      hdisj _ hmem
    have hfilter := filter_eq_nil_of_not_mem_map SourceRow.source_index
      a.rows r.source_index hnota
    simp only [checkin_apply, hfilter, List.getLast?_nil,
      if_neg hnota, if_pos hmem]

/-- A base catalog row used by concrete checkin scenarios: row i sits at
scene position (2i, 0), inactive and invalid (checked out). -/
def C4base : Nat → SourceRow := fun i =>
  { source_index := i
    ra := i
    dec := i
    x := 2 * i
    y := 0
    rhalf := 1/10
    pars := [3]
    n_iter := 10
    n_patch := 2
    is_active := i = 0
    is_valid := false }

def C4scene : SuperScene :=
  { superscene_init 2 C4base 200 (1/10) 20 3 8 5 1 with
    n_active := 1, n_fixed := 1 }

def C4activeRow : SourceRow := { C4base 0 with pars := [7] }

def C4active : RowTable := { hasIndexField := true, rows := [C4activeRow] }

def C4fixed : RowTable := { hasIndexField := true, rows := [C4base 1] }

/-- Witness for C4_checkin_effect: a two-row catalog with row 0 checked
out active and row 1 fixed; checking them back in with delta 5 updates
row 0's parameters and counters and revalidates row 1. -/
theorem C4_checkin_effect_witness :
    (C4active.hasIndexField = true ∧ C4fixed.hasIndexField = true ∧
      (C4active.rows.map SourceRow.source_index).Nodup ∧
      (∀ j ∈ C4fixed.rows.map SourceRow.source_index,
        j ∉ C4active.rows.map SourceRow.source_index)) ∧
    ((checkin_region C4scene C4active C4fixed 5).1 = Except.ok () ∧
    (∀ r ∈ C4active.rows,
      (checkin_region C4scene C4active C4fixed 5).2.row r.source_index =
      { C4scene.row r.source_index with
        pars := r.pars
        n_iter := (C4scene.row r.source_index).n_iter + 5
        n_patch := (C4scene.row r.source_index).n_patch + 1
        is_active := false
        is_valid := true }) ∧
    (∀ r ∈ C4fixed.rows,
      (checkin_region C4scene C4active C4fixed 5).2.row r.source_index =
      { C4scene.row r.source_index with is_valid := true })) :=
  ⟨⟨rfl, rfl, by decide, by decide⟩,
    C4_checkin_effect C4scene C4active C4fixed 5 rfl rfl
      (by decide) (by decide)⟩

end ClaimC4

section ClaimC9

/-- A catalog with nothing checked out: both rows inactive and valid. -/
def C9row : Nat → SourceRow := fun i =>
  { source_index := i
    ra := i
    dec := i
    x := 2 * i
    y := 0
    rhalf := 1/10
    pars := [3]
    n_iter := 10
    n_patch := 2
    is_active := false
    is_valid := true }

def C9scene : SuperScene :=
  superscene_init 2 C9row 200 (1/10) 20 3 8 5 1

def C9active : RowTable := { hasIndexField := true, rows := [C9row 0] }

def C9fixed : RowTable := { hasIndexField := true, rows := [] }

/-- Claim C9 counterexample: row 0 is not currently checked out (it is
inactive and valid), yet checkin_region with a row referencing index 0
does not fail — it returns normally and even bumps row 0's n_patch.
So checkin_region does not fail when a supplied row references an index
that is not checked out, refuting the claimed iff. -/
theorem C9_no_identity_check_cex :
    (C9scene.row 0).is_active = false ∧ (C9scene.row 0).is_valid = true ∧
    (checkin_region C9scene C9active C9fixed 1).1 = Except.ok () ∧
    ((checkin_region C9scene C9active C9fixed 1).2.row 0).n_patch =
      (C9scene.row 0).n_patch + 1 := by
  refine ⟨rfl, rfl, rfl, ?_⟩
  simp [checkin_region, checkin_apply, C9active, C9fixed, C9scene, C9row, superscene_init]

/-- Claim C9 amended: checkin_region raises (a KeyError, the code's
concrete IdentityError) if and only if one of the supplied row tables
lacks the index column; an index that is not currently checked out is
not detected.  When the error is raised the catalog state is
unchanged. -/
theorem C9_keyError_iff (s : SuperScene) (a f : RowTable) (d : ℤ) :
    ((checkin_region s a f d).1 = Except.error () ↔
      (a.hasIndexField = false ∨ f.hasIndexField = false)) ∧
    ((checkin_region s a f d).1 = Except.error () →
      (checkin_region s a f d).2 = s) := by
  by_cases h : a.hasIndexField = false ∨ f.hasIndexField = false
  · rw [checkin_region, if_pos h]
    exact ⟨⟨fun _ => h, fun _ => rfl⟩, fun _ => rfl⟩
  · rw [checkin_region, if_neg h]
    refine ⟨⟨fun hc => absurd hc (by simp), fun hc => absurd hc h⟩, ?_⟩
    intro hc
    exact absurd hc (by simp)

end ClaimC9

section ClaimC1

/-- A dispatcher state for the checkout/checkin protocol: the SuperScene
and the list of currently outstanding (checked-out, not yet checked-in)
regions, each recorded as its (active, fixed) catalog-index lists. -/
structure DState where
  scene : SuperScene
  outstanding : List (List Nat × List Nat)

/-- The active-or-fixed index set of an outstanding region. -/
def regionSet (r : List Nat × List Nat) (i : Nat) : Prop := i ∈ r.1 ∨ i ∈ r.2

/-- One successful checkout_region or checkin_region call acting on the
dispatcher state.  checkout installs the selected (active, fixed) index
lists with the flag mutations of dispatcher.py lines 187-191 and adds
the region to the outstanding list; checkin is called with row tables
copied at checkout time (parameters possibly updated, index columns
equal to the lists of one outstanding region), applies the mutations of
lines 209-221 and retires that region. -/
inductive DStep : DState → DState → Prop
  | checkout (s : DState) (a f : List Nat) :
      DStep s { scene := checkout_apply s.scene a f
                outstanding := (a, f) :: s.outstanding }
  | checkin (s : DState) (a f : List Nat) (ra rf : List SourceRow)
      (niter : ℤ) (hmem : (a, f) ∈ s.outstanding)
      (hra : ra.map SourceRow.source_index = a)
      (hrf : rf.map SourceRow.source_index = f) :
      DStep s { scene := checkin_apply s.scene ra rf niter
                outstanding := s.outstanding.erase (a, f) }

/-- No two outstanding checkouts hold the same catalog index. -/
def DisjointOutstanding (s : DState) : Prop :=
  s.outstanding.Pairwise (fun r1 r2 => ∀ i, regionSet r1 i → ¬ regionSet r2 i)

/-- The invariant of claim C1: an entry's is_valid flag is false exactly
when its index belongs to the active-or-fixed set of some currently
outstanding region. -/
def ValidInvariant (s : DState) : Prop :=
  ∀ i, ((s.scene.row i).is_valid = false ↔ ∃ r ∈ s.outstanding, regionSet r i)

/-- Call sequences from a state in which every reached state keeps the
outstanding regions pairwise index-disjoint (the side condition of the
claim: no two outstanding checkouts ever hold the same index). -/
inductive DReach : DState → DState → Prop
  | refl (s : DState) : DReach s s
  | step {s t u : DState} : DReach s t → DStep t u → DisjointOutstanding u →
      DReach s u

/-- The is_valid flag after the checkout mutations: cleared on the
active and fixed indices, untouched elsewhere. -/
theorem checkout_apply_is_valid (s : SuperScene) (a f : List Nat) (i : Nat) :
    ((checkout_apply s a f).row i).is_valid =
      if i ∈ a ∨ i ∈ f then false else (s.row i).is_valid := by
  by_cases h1 : i ∈ a <;> by_cases h2 : i ∈ f <;>
    simp [checkout_apply, h1, h2]

/-- The is_valid flag after the checkin mutations: set on the active and
fixed indices (the parameter overwrite leaves it untouched), untouched
elsewhere. -/
theorem checkin_apply_is_valid (s : SuperScene) (ra rf : List SourceRow)
    (niter : ℤ) (i : Nat) :
    ((checkin_apply s ra rf niter).row i).is_valid =
      if i ∈ ra.map SourceRow.source_index ∨ i ∈ rf.map SourceRow.source_index
        then true else (s.row i).is_valid := by
  dsimp only [checkin_apply]
  by_cases h2 : i ∈ rf.map SourceRow.source_index
  · rw [if_pos h2, if_pos (Or.inr h2)]
  · rw [if_neg h2]
    by_cases h1 : i ∈ ra.map SourceRow.source_index
    · rw [if_pos h1, if_pos (Or.inl h1)]
    · rw [if_neg h1, if_neg (by tauto)]

/-- After erasing an outstanding region that holds index i, no remaining
region holds i, because outstanding regions are pairwise disjoint. -/
theorem not_mem_erased_region {l : List (List Nat × List Nat)}
    {af : List Nat × List Nat} {i : Nat}
    (hp : l.Pairwise (fun r1 r2 => ∀ j, regionSet r1 j → ¬ regionSet r2 j))
    (hmem : af ∈ l) (hi : regionSet af i) :
    ∀ r ∈ l.erase af, ¬ regionSet r i := by
  induction l with
  | nil => simp
  | cons x t ih =>
    rw [List.pairwise_cons] at hp
    by_cases hx : x = af
    · subst hx
      rw [List.erase_cons_head]
      exact fun r hr => hp.1 r hr i hi
    · rw [List.erase_cons_tail (by simpa using hx)]
      have hmt : af ∈ t := by
        rcases List.mem_cons.mp hmem with h | h
        · exact absurd h.symm hx
        · exact h
      intro r hr
      rcases List.mem_cons.mp hr with rfl | hrt
      · intro hri
        exact hp.1 af hmt i hri hi
      · exact ih hp.2 hmt r hrt

/-- For an index not held by the erased region, the remaining
outstanding regions hold it exactly when the original ones did. -/
theorem exists_region_erase_iff {l : List (List Nat × List Nat)}
    {af : List Nat × List Nat} {i : Nat} (hi : ¬ regionSet af i) :
    ((∃ r ∈ l, regionSet r i) ↔ ∃ r ∈ l.erase af, regionSet r i) := by
  constructor
  · rintro ⟨r, hr, hri⟩
    have hne : r ≠ af := fun h => hi (h ▸ hri)
    exact ⟨r, (List.mem_erase_of_ne hne).mpr hr, hri⟩
  · rintro ⟨r, hr, hri⟩
    exact ⟨r, List.erase_subset _ _ hr, hri⟩

/-- A single checkout or checkin step preserves the is_valid invariant,
provided the outstanding regions of the pre-state are pairwise
disjoint. -/
theorem DStep_preserves_invariant {s t : DState} (hstep : DStep s t)
    (hdisj : DisjointOutstanding s) (hinv : ValidInvariant s) :
    ValidInvariant t := by
  cases hstep with
  | checkout a f =>
    intro i
    rw [checkout_apply_is_valid]
    by_cases h : i ∈ a ∨ i ∈ f
    · rw [if_pos h]
      exact iff_of_true rfl ⟨(a, f), List.mem_cons_self _ _, h⟩
    · rw [if_neg h]
      rw [hinv i]
      constructor
      · rintro ⟨r, hr, hri⟩
        exact ⟨r, List.mem_cons_of_mem _ hr, hri⟩
      · rintro ⟨r, hr, hri⟩
        rcases List.mem_cons.mp hr with rfl | hrt
        · exact absurd hri h
        · exact ⟨r, hrt, hri⟩
  | checkin a f ra rf niter hmem hra hrf =>
    intro i
    rw [checkin_apply_is_valid, hra, hrf]
    by_cases h : i ∈ a ∨ i ∈ f
    · rw [if_pos h]
      refine iff_of_false (by simp) ?_
      rintro ⟨r, hr, hri⟩
      exact not_mem_erased_region hdisj hmem h r hr hri
    · rw [if_neg h]
      exact (hinv i).trans (exists_region_erase_iff h)

/-- Reachability with invariant and disjointness at every state. -/
theorem DReach_inv_aux {s t : DState} (h : DReach s t)
    (hd : DisjointOutstanding s) (hi : ValidInvariant s) :
    ValidInvariant t ∧ DisjointOutstanding t := by
  induction h with
  | refl => exact ⟨hi, hd⟩
  | step _ hstep hdis ih =>
    exact ⟨DStep_preserves_invariant hstep ih.2 ih.1, hdis⟩

/-- Claim C1: for every sequence of checkout_region/checkin_region calls
in which no two outstanding checkouts ever hold the same catalog index,
starting from a state satisfying the invariant (e.g. all entries valid,
nothing outstanding), at every instant an entry's is_valid flag is false
exactly when its index belongs to the active-or-fixed set of some
currently outstanding region. -/
theorem C1_isValid_invariant (s t : DState) (hd : DisjointOutstanding s)
    (hi : ValidInvariant s) (hreach : DReach s t) : ValidInvariant t :=
  (DReach_inv_aux hreach hd hi).1

/-- A fresh two-row dispatcher state for the C1 witness: all entries
valid, nothing outstanding. -/
def C1s0 : DState :=
  { scene := superscene_init 2 C9row 200 (1/10) 20 3 8 5 1
    outstanding := [] }

/-- The state after one checkout of active = [0], fixed = [1]. -/
def C1s1 : DState :=
  { scene := checkout_apply C1s0.scene [0] [1]
    outstanding := [([0], [1])] }

/-- Witness for C1_isValid_invariant: the fresh state satisfies the
hypotheses and after one concrete checkout the invariant still holds. -/
theorem C1_isValid_invariant_witness :
    (DisjointOutstanding C1s0 ∧ ValidInvariant C1s0) ∧ ValidInvariant C1s1 :=
  ⟨⟨List.Pairwise.nil,
    by intro i; simp [C1s0, superscene_init, C9row, regionSet]⟩,
    C1_isValid_invariant C1s0 C1s1 List.Pairwise.nil
      (by intro i; simp [C1s0, superscene_init, C9row, regionSet])
      (DReach.step (DReach.refl C1s0) (DStep.checkout C1s0 [0] [1])
        (List.pairwise_singleton _ _))⟩

end ClaimC1

section PatchSelection

/-- cKDTree.query_ball_point (line 244): the catalog indices whose scene
coordinates lie within boundary_radius of the center.  The library
contract, all points at planar distance ≤ r, is embedded through the
equivalent (for the nonnegative radii used by SuperScene) comparison of
squared distances, which keeps the query exact over ℚ. -/
def kinds (s : SuperScene) (center : ℚ × ℚ) : List Nat :=
  (List.range s.n).filter fun i =>
    decide (((s.row i).x - center.1) ^ 2 + ((s.row i).y - center.2) ^ 2 ≤
      s.boundary_radius ^ 2)

/-- np.hypot of the offset from the center (lines 255-256): the planar
Euclidean distance of source i from the center. -/
noncomputable def distanceTo (s : SuperScene) (center : ℚ × ℚ) (i : Nat) :
    ℝ :=
  Real.sqrt ((((s.row i).x - center.1 : ℚ) : ℝ) ^ 2 +
    (((s.row i).y - center.2 : ℚ) : ℝ) ^ 2)

/-- outer = distance + nscale * rhalf (line 260). -/
noncomputable def outerOf (s : SuperScene) (center : ℚ × ℚ) (i : Nat) : ℝ :=
  distanceTo s center i + (s.nscale : ℝ) * ((s.row i).rhalf : ℝ)

/-- inner = distance - nscale * rhalf (line 261). -/
noncomputable def innerOf (s : SuperScene) (center : ℚ × ℚ) (i : Nat) : ℝ :=
  distanceTo s center i - (s.nscale : ℝ) * ((s.row i).rhalf : ℝ)

/-- np.argsort(outer) (line 265) composed with the candidate list: the
candidates listed in nondecreasing order of outer distance.  np.argsort
uses an unstable quicksort, so the tie order is implementation-defined;
the embedding therefore passes the sorted candidate list as an argument
constrained by this predicate instead of fixing one tie-breaking rule. -/
def IsSortedCandidates (s : SuperScene) (center : ℚ × ℚ)
    (order : List Nat) : Prop :=
  order.Perm (kinds s center) ∧
    order.Pairwise (fun i j => outerOf s center i ≤ outerOf s center j)

/-- np.argmin over a boolean array (line 268): the position of the first
minimum.  numpy orders False < True, so this is the position of the
first False when one exists, and position 0 when every entry is True. -/
def npArgminBool (l : List Bool) : Nat :=
  if false ∈ l then l.indexOf false else 0

/-- N_inside = np.argmin(outer[order] < maxradius) (line 268). -/
noncomputable def nInside (s : SuperScene) (center : ℚ × ℚ)
    (order : List Nat) : Nat :=
  npArgminBool (order.map fun i =>
    decide (outerOf s center i < (s.maxradius : ℝ)))

/-- The outcome of get_circular_scene: the conflict signal (the code's
triple of Nones), a raised numpy exception, or a radius with the active
and fixed catalog-index lists. -/
inductive GCSOut
  | conflict
  | crash
  | ok (radius : ℝ) (active_inds fixed_inds : List Nat)

/-- SuperScene.get_circular_scene (lines 224-290) given the sorted
candidate order.  crash covers the two numpy exceptions on degenerate
data: indexing sourcecat with an empty (float-dtype) index array at the
conflict check, and ndarray.max() of the empty array of active outer
distances when N_active = 0 (line 279). -/
noncomputable def get_circular_scene (s : SuperScene) (center : ℚ × ℚ)
    (order : List Nat) : GCSOut :=
  let ks := kinds s center
  if ks = [] then .crash
  else if ks.any (fun i => (s.row i).is_active) then .conflict
  else
    let N_active := min s.maxactive (nInside s center order)
    let active_inds := order.take N_active
    let finds := order.drop N_active
    match active_inds.map (outerOf s center) with
    | [] => .crash
    | o :: os =>
      let radius := max (s.minradius : ℝ) (os.foldl max o)
      let fixed0 := (finds.filter fun i =>
        decide (innerOf s center i < radius)).take
        (min s.maxactive finds.length)
      let fixed_inds := if fixed0 = [] then finds.take 1 else fixed0
      .ok radius active_inds fixed_inds

/-- The outcome of checkout_region: the conflict return
(center, None, None), a raised exception from get_circular_scene, or the
CircularRegion data (its radius converted to degrees) with the active
and fixed index lists whose catalog rows are returned. -/
inductive CheckoutResult
  | conflict (center : ℚ × ℚ)
  | crash
  | ok (cra cdec : ℚ) (region_radius : ℝ) (active_inds fixed_inds : List Nat)

/-- SuperScene.checkout_region (lines 164-193).  skyToScene abstracts
the astropy sky-to-scene coordinate transform (an external collaborator)
and randomDraw the np.random.choice outcome inside draw_center; order is
the argsort permutation as in get_circular_scene.  Returns the python
result together with the state of self after the call: flags and
counters are mutated only in the successful branch. -/
noncomputable def checkout_region (s : SuperScene) (seed_index : Option Nat)
    (randomDraw : Nat) (skyToScene : ℚ × ℚ → ℚ × ℚ) (order : List Nat) :
    CheckoutResult × SuperScene :=
  let cradec := draw_center s seed_index randomDraw
  let center := skyToScene cradec
  match get_circular_scene s center order with
  | .conflict => (.conflict center, s)
  | .crash => (.crash, s)
  | .ok radius a f =>
      (.ok cradec.1 cradec.2 (radius / 3600) a f, checkout_apply s a f)

end PatchSelection

section ClaimC3

/-- Claim C3: if any candidate within boundary_radius of the chosen
center is active, checkout_region returns the conflict signal and the
SuperScene state — every catalog flag and both occupancy counters — is
left completely unchanged. -/
theorem C3_conflict_no_mutation (s : SuperScene) (seed_index : Option Nat)
    (randomDraw : Nat) (skyToScene : ℚ × ℚ → ℚ × ℚ) (order : List Nat)
    (h : ∃ i ∈ kinds s (skyToScene (draw_center s seed_index randomDraw)),
      (s.row i).is_active = true) :
    checkout_region s seed_index randomDraw skyToScene order =
      (.conflict (skyToScene (draw_center s seed_index randomDraw)), s) := by
  obtain ⟨i, hik, hia⟩ := h
  have hk : kinds s (skyToScene (draw_center s seed_index randomDraw)) ≠ [] := by
    intro he
    rw [he] at hik
    cases hik
  have hany : (kinds s (skyToScene (draw_center s seed_index randomDraw))).any
      (fun i => (s.row i).is_active) = true :=
    List.any_eq_true.mpr ⟨i, hik, hia⟩
  simp only [checkout_region, get_circular_scene]
  rw [if_neg hk, if_pos hany]

/-- A two-row catalog with row 0 active at the center: row i sits at
scene position (2i, 0); every row's sky position is (0, 0) so the drawn
center maps to the scene origin under the identity transform. -/
def C3row : Nat → SourceRow := fun i =>
  { source_index := i
    ra := 0
    dec := 0
    x := 2 * i
    y := 0
    rhalf := 1/10
    pars := []
    n_iter := 0
    n_patch := 0
    is_active := i = 0
    is_valid := i ≠ 0 }

def C3scene : SuperScene :=
  { superscene_init 2 C3row 200 (1/10) 20 3 8 5 1 with n_active := 1 }

/-- Witness for C3_conflict_no_mutation: with row 0 active inside the
boundary radius of the drawn center, the concrete checkout returns the
conflict signal and leaves the state untouched. -/
theorem C3_conflict_no_mutation_witness :
    (∃ i ∈ kinds C3scene (id (draw_center C3scene (some 1) 0)),
      (C3scene.row i).is_active = true) ∧
    checkout_region C3scene (some 1) 0 id [0, 1] =
      (.conflict (id (draw_center C3scene (some 1) 0)), C3scene) := by
  have hmem : (0 : Nat) ∈ kinds C3scene (id (draw_center C3scene (some 1) 0)) := by
    have : ((0:ℚ) - 0) ^ 2 + ((0:ℚ) - 0) ^ 2 ≤ (8:ℚ) ^ 2 := by norm_num
    simp [kinds, C3scene, C3row, superscene_init, draw_center,
      List.range_succ, this]
  have hex : ∃ i ∈ kinds C3scene (id (draw_center C3scene (some 1) 0)),
      (C3scene.row i).is_active = true := ⟨0, hmem, rfl⟩
  exact ⟨hex, C3_conflict_no_mutation C3scene (some 1) 0 id [0, 1] hex⟩

end ClaimC3

section ClaimC2

/-- Three inactive rows on a line at scene x = 0, 2, 4 with
rhalf = 1/10: with nscale = 3 and maxradius = 5 every candidate's outer
distance (0.3, 2.3, 4.3) lies strictly below maxradius. -/
def C2row : Nat → SourceRow := fun i =>
  { source_index := i
    ra := 0
    dec := 0
    x := 2 * i
    y := 0
    rhalf := 1/10
    pars := []
    n_iter := 0
    n_patch := 0
    is_active := false
    is_valid := true }

def C2scene : SuperScene :=
  superscene_init 3 C2row 200 (1/10) 20 3 8 5 1

def C2center : ℚ × ℚ := (0, 0)

theorem C2kinds : kinds C2scene C2center = [0, 1, 2] := by
  simp [kinds, C2scene, C2row, superscene_init, C2center, List.range_succ]
  norm_num

theorem C2distance0 : distanceTo C2scene C2center 0 = 0 := by
  have h : (((C2scene.row 0).x - C2center.1 : ℚ) : ℝ) ^ 2 +
      (((C2scene.row 0).y - C2center.2 : ℚ) : ℝ) ^ 2 = 0 := by
    norm_num [C2scene, C2row, superscene_init, C2center]
  unfold distanceTo
  rw [h, Real.sqrt_zero]

theorem C2distance1 : distanceTo C2scene C2center 1 = 2 := by
  have h : (((C2scene.row 1).x - C2center.1 : ℚ) : ℝ) ^ 2 +
      (((C2scene.row 1).y - C2center.2 : ℚ) : ℝ) ^ 2 = 2 ^ 2 := by
    norm_num [C2scene, C2row, superscene_init, C2center]
  unfold distanceTo
  rw [h, Real.sqrt_sq (by norm_num : (0:ℝ) ≤ 2)]

theorem C2distance2 : distanceTo C2scene C2center 2 = 4 := by
  have h : (((C2scene.row 2).x - C2center.1 : ℚ) : ℝ) ^ 2 +
      (((C2scene.row 2).y - C2center.2 : ℚ) : ℝ) ^ 2 = 4 ^ 2 := by
    norm_num [C2scene, C2row, superscene_init, C2center]
  unfold distanceTo
  rw [h, Real.sqrt_sq (by norm_num : (0:ℝ) ≤ 4)]

theorem C2outer0 : outerOf C2scene C2center 0 = 3/10 := by
  unfold outerOf
  rw [C2distance0]
  norm_num [C2scene, C2row, superscene_init]

theorem C2outer1 : outerOf C2scene C2center 1 = 23/10 := by
  unfold outerOf
  rw [C2distance1]
  norm_num [C2scene, C2row, superscene_init]

theorem C2outer2 : outerOf C2scene C2center 2 = 43/10 := by
  unfold outerOf
  rw [C2distance2]
  norm_num [C2scene, C2row, superscene_init]

theorem C2maxradius : ((C2scene.maxradius : ℚ) : ℝ) = 5 := by
  norm_num [C2scene, superscene_init]

theorem C2inside0 :
    decide (outerOf C2scene C2center 0 < ((C2scene.maxradius : ℚ) : ℝ)) =
      true :=
  decide_eq_true (by rw [C2outer0, C2maxradius]; norm_num)

theorem C2inside1 :
    decide (outerOf C2scene C2center 1 < ((C2scene.maxradius : ℚ) : ℝ)) =
      true :=
  decide_eq_true (by rw [C2outer1, C2maxradius]; norm_num)

theorem C2inside2 :
    decide (outerOf C2scene C2center 2 < ((C2scene.maxradius : ℚ) : ℝ)) =
      true :=
  decide_eq_true (by rw [C2outer2, C2maxradius]; norm_num)

/-- Claim C2 (the code bug at dispatcher.py line 268): on a concrete
conflict-free input in which every candidate's outer distance is
strictly below max_radius, the sorted candidate order [0, 1, 2] is a
valid argsort result, the number of sorted candidates with
outer < max_radius is 3, yet N_inside = np.argmin(outer[order] <
maxradius) evaluates to 0 — np.argmin of an all-True boolean array
returns position 0, contradicting the in-code comment "How many sources
have an outer distance within max patch size" — so N_active = 0 and
get_circular_scene crashes on line 279 taking the max of an empty
array, instead of returning the claimed active prefix. -/
theorem C2_nInside_allInside_bug :
    IsSortedCandidates C2scene C2center [0, 1, 2] ∧
    (outerOf C2scene C2center 0 < ((C2scene.maxradius : ℚ) : ℝ) ∧
     outerOf C2scene C2center 1 < ((C2scene.maxradius : ℚ) : ℝ) ∧
     outerOf C2scene C2center 2 < ((C2scene.maxradius : ℚ) : ℝ)) ∧
    ((kinds C2scene C2center).filter fun i =>
      decide (outerOf C2scene C2center i < ((C2scene.maxradius : ℚ) : ℝ))).length
      = 3 ∧
    nInside C2scene C2center [0, 1, 2] = 0 ∧
    get_circular_scene C2scene C2center [0, 1, 2] = .crash := by
  have hin0 := of_decide_eq_true C2inside0
  have hin1 := of_decide_eq_true C2inside1
  have hin2 := of_decide_eq_true C2inside2
  have hsorted : IsSortedCandidates C2scene C2center [0, 1, 2] := by
    constructor
    · rw [C2kinds]
    · simp only [List.pairwise_cons, List.mem_cons, List.not_mem_nil,
        List.Pairwise.nil, and_true]
      refine ⟨?_, ?_, ?_⟩
      · intro j hj
        rcases hj with rfl | hj
        · rw [C2outer0, C2outer1]; norm_num
        · rcases hj with rfl | hj
          · rw [C2outer0, C2outer2]; norm_num
          · cases hj
      · intro j hj
        rcases hj with rfl | hj
        · rw [C2outer1, C2outer2]; norm_num
        · cases hj
      · intro j hj
        cases hj
  have hcount : ((kinds C2scene C2center).filter fun i =>
      decide (outerOf C2scene C2center i < ((C2scene.maxradius : ℚ) : ℝ))).length
      = 3 := by
    rw [C2kinds]
    simp [List.filter_cons, C2inside0, C2inside1, C2inside2]
  have hnin : nInside C2scene C2center [0, 1, 2] = 0 := by
    unfold nInside
    simp [C2inside0, C2inside1, C2inside2, npArgminBool]
  have hcrash : get_circular_scene C2scene C2center [0, 1, 2] = .crash := by
    simp only [get_circular_scene, C2kinds, hnin]
    rw [if_neg (by simp)]
    rw [if_neg (by simp [C2scene, C2row, superscene_init])]
    simp
  exact ⟨hsorted, ⟨hin0, hin1, hin2⟩, hcount, hnin, hcrash⟩

end ClaimC2

section SeedWeight

/-- n.mean() over the n_iter column (line 326). -/
noncomputable def nIterMean (s : SuperScene) : ℝ :=
  (∑ j in Finset.range s.n, ((s.row j).n_iter : ℝ)) / s.n

/-- The unnormalized seed weight of entry i in SuperScene.exp_weight
(lines 320-327): (~is_active) cast to 1.0/0.0, times
exp((mean(n_iter) - n_iter) / sigma) with sigma = 20.  (The method also
computes a local mu from n.min() and target_niter on line 324 that it
never uses; that dead assignment is omitted.) -/
noncomputable def exp_weight_raw (s : SuperScene) (i : Nat) : ℝ :=
  (if (s.row i).is_active then 0 else 1) *
    Real.exp ((nIterMean s - ((s.row i).n_iter : ℝ)) / 20)

/-- The value returned by exp_weight: w / w.sum() (line 327).  When
every entry is active the sum is 0 and numpy produces NaN components
(0/0); the exact model's division by zero yields 0, and under either
semantics the normalized vector fails to sum to 1. -/
noncomputable def exp_weight (s : SuperScene) (i : Nat) : ℝ :=
  exp_weight_raw s i / ∑ j in Finset.range s.n, exp_weight_raw s j

theorem exp_weight_raw_nonneg (s : SuperScene) (i : Nat) :
    0 ≤ exp_weight_raw s i := by
  unfold exp_weight_raw
  apply mul_nonneg
  · split_ifs <;> norm_num
  · exact (Real.exp_pos _).le

theorem exp_weight_raw_pos_of_inactive (s : SuperScene) (i : Nat)
    (h : (s.row i).is_active = false) : 0 < exp_weight_raw s i := by
  unfold exp_weight_raw
  rw [h]
  simpa using Real.exp_pos ((nIterMean s - ((s.row i).n_iter : ℝ)) / 20)

end SeedWeight

section ClaimC6

/-- Claim C6 amended: provided at least one catalog entry is inactive,
the exp_weight vector has every component non-negative, sums to 1 over
the catalog, and is exactly 0 at every active entry. -/
theorem C6_weight_law (s : SuperScene)
    (h : ∃ i ∈ Finset.range s.n, (s.row i).is_active = false) :
    (∀ i, 0 ≤ exp_weight s i) ∧
    (∑ i in Finset.range s.n, exp_weight s i = 1) ∧
    (∀ i, (s.row i).is_active = true → exp_weight s i = 0) := by
  obtain ⟨i0, hi0mem, hi0⟩ := h
  have hsum : 0 < ∑ j in Finset.range s.n, exp_weight_raw s j :=
    Finset.sum_pos' (fun j _ => exp_weight_raw_nonneg s j)
      ⟨i0, hi0mem, exp_weight_raw_pos_of_inactive s i0 hi0⟩
  refine ⟨?_, ?_, ?_⟩
  · intro i
    exact div_nonneg (exp_weight_raw_nonneg s i) hsum.le
  · unfold exp_weight
    rw [← Finset.sum_div]
    exact div_self (ne_of_gt hsum)
  · intro i hi
    unfold exp_weight exp_weight_raw
    rw [hi]
    simp

/-- A two-row catalog with both entries inactive and different n_iter
counts, for the C6 witness. -/
def C6row : Nat → SourceRow := fun i =>
  { source_index := i
    ra := 0
    dec := 0
    x := 2 * i
    y := 0
    rhalf := 1/10
    pars := []
    n_iter := 4 * i
    n_patch := 0
    is_active := false
    is_valid := true }

def C6scene : SuperScene :=
  superscene_init 2 C6row 200 (1/10) 20 3 8 5 1

/-- Witness for C6_weight_law on the concrete two-row catalog: entry 0
is inactive, so the weight law holds there. -/
theorem C6_weight_law_witness :
    (∃ i ∈ Finset.range C6scene.n, (C6scene.row i).is_active = false) ∧
    ((∀ i, 0 ≤ exp_weight C6scene i) ∧
     (∑ i in Finset.range C6scene.n, exp_weight C6scene i = 1) ∧
     (∀ i, (C6scene.row i).is_active = true → exp_weight C6scene i = 0)) :=
  ⟨⟨0, by simp [C6scene, superscene_init], rfl⟩,
    C6_weight_law C6scene ⟨0, by simp [C6scene, superscene_init], rfl⟩⟩

/-- A one-row catalog whose only entry is active: every unnormalized
weight is 0. -/
def C6cexRow : Nat → SourceRow := fun i =>
  { source_index := i
    ra := 0
    dec := 0
    x := 2 * i
    y := 0
    rhalf := 1/10
    pars := []
    n_iter := 0
    n_patch := 0
    is_active := true
    is_valid := false }

def C6cexScene : SuperScene :=
  superscene_init 1 C6cexRow 200 (1/10) 20 3 8 5 1

/-- Claim C6 counterexample: on a catalog state whose every entry is
active, the exp_weight vector does not sum to 1 — w.sum() is 0, numpy's
w / w.sum() is NaN (0 in the exact model of division by zero) — so the
weight law does not hold for every catalog state. -/
theorem C6_allActive_cex :
    (C6cexScene.row 0).is_active = true ∧ C6cexScene.n = 1 ∧
    (∑ i in Finset.range C6cexScene.n, exp_weight C6cexScene i) ≠ 1 := by
  refine ⟨rfl, rfl, ?_⟩
  have hraw : ∀ i, exp_weight_raw C6cexScene i = 0 := by
    intro i
    unfold exp_weight_raw
    simp [C6cexScene, C6cexRow, superscene_init]
  unfold exp_weight
  simp [hraw]

end ClaimC6

section WorkQueue

/-- The state of an MPIQueue (dispatcher.py lines 357-385): busy holds
(child id, request) pairs in submission order, idle the idle child ids
in order.  The opaque MPI request handle returned by comm.isend is
modelled by the task payload it was created for (type α). -/
structure MPIQueue (α : Type) where
  busy : List (Nat × α)
  idle : List Nat
  n_children : Nat

/-- MPIQueue.__init__ (lines 378-385): busy = [] and
idle = list(range(n_children + 1))[1:] = [1, ..., n_children]. -/
def initQueue (α : Type) (n_children : Nat) : MPIQueue α :=
  { busy := [], idle := List.range' 1 n_children, n_children := n_children }

/-- MPIQueue.submit (lines 412-421): pops the first idle child —
idle.pop(0) raises IndexError (none) when no child is idle — issues the
non-blocking send, appends (child, request) to busy and returns the
child id. -/
def submit {α : Type} (q : MPIQueue α) (task : α) :
    Option (Nat × MPIQueue α) :=
  match q.idle with
  | [] => none
  | child :: rest =>
      some (child, { q with idle := rest
                            busy := q.busy ++ [(child, task)] })

/-- The polling for-loop inside MPIQueue.collect_one (lines 402-410):
scan busy in order with the Iprobe outcome per child id; pop the first
completed entry, returning it together with the remaining busy list. -/
def popFirstComplete {α : Type} (complete : Nat → Bool) :
    List (Nat × α) → Option ((Nat × α) × List (Nat × α))
  | [] => none
  | (child, req) :: rest =>
    if complete child then some ((child, req), rest)
    else match popFirstComplete complete rest with
      | none => none
      | some (e, rest') => some (e, (child, req) :: rest')

/-- MPIQueue.collect_one (lines 387-410).  `complete` is the Iprobe
outcome per child at the poll sweep that finds a completion and `recv`
the blocking receive of a child's result; when no busy child completes
the while-loop busy-waits forever (none).  On success the code runs
`ret = self.busy.pop(i); self.idle.append(child); return ret, result`,
so the returned value is the (child, request) pair paired with the
result. -/
def collect_one {α β : Type} (q : MPIQueue α) (complete : Nat → Bool)
    (recv : Nat → β) : Option (((Nat × α) × β) × MPIQueue α) :=
  match popFirstComplete complete q.busy with
  | none => none
  | some (e, rest) =>
      some ((e, recv e.1), { q with busy := rest
                                    idle := q.idle ++ [e.1] })

/-- The multiset of worker ids the queue tracks: the idle ids together
with the ids of the busy entries. -/
def queueIds {α : Type} (q : MPIQueue α) : Multiset Nat :=
  (q.idle : Multiset Nat) + (q.busy.map Prod.fst : Multiset Nat)

/-- One valid queue operation: a submit invoked while idle is non-empty
(it returned a child id), or a collect_one that observed a
completion. -/
inductive QStep {α : Type} : MPIQueue α → MPIQueue α → Prop
  | submitted (q : MPIQueue α) (task : α) (child : Nat) (q' : MPIQueue α) :
      submit q task = some (child, q') → QStep q q'
  | collected {β : Type} (q : MPIQueue α) (complete : Nat → Bool)
      (recv : Nat → β) (r : (Nat × α) × β) (q' : MPIQueue α) :
      collect_one q complete recv = some (r, q') → QStep q q'

/-- Sequences of valid submit/collect_one calls. -/
inductive QReach {α : Type} : MPIQueue α → MPIQueue α → Prop
  | refl (q : MPIQueue α) : QReach q q
  | step {q r t : MPIQueue α} : QReach q r → QStep r t → QReach q t

/-- The defining equation of submit on an empty idle list. -/
theorem submit_eq_nil {α : Type} (q : MPIQueue α) (task : α)
    (h : q.idle = []) : submit q task = none := by
  unfold submit
  rw [h]

/-- The defining equation of submit on a non-empty idle list. -/
theorem submit_eq_cons {α : Type} (q : MPIQueue α) (task : α) (c : Nat)
    (rest : List Nat) (h : q.idle = c :: rest) :
    submit q task = some (c, { q with idle := rest
                                      busy := q.busy ++ [(c, task)] }) := by
  unfold submit
  rw [h]

/-- The defining equation of collect_one when the poll never finds a
completion. -/
theorem collect_one_eq_none {α β : Type} (q : MPIQueue α)
    (complete : Nat → Bool) (recv : Nat → β)
    (h : popFirstComplete complete q.busy = none) :
    collect_one q complete recv = none := by
  unfold collect_one
  rw [h]

/-- The defining equation of collect_one when the poll pops an entry. -/
theorem collect_one_eq_some {α β : Type} (q : MPIQueue α)
    (complete : Nat → Bool) (recv : Nat → β) (e : Nat × α)
    (rest : List (Nat × α))
    (h : popFirstComplete complete q.busy = some (e, rest)) :
    collect_one q complete recv =
      some ((e, recv e.1), { q with busy := rest
                                    idle := q.idle ++ [e.1] }) := by
  unfold collect_one
  rw [h]

/-- The popped entry together with the remaining list is a permutation
of the original busy list. -/
theorem popFirstComplete_perm {α : Type} (complete : Nat → Bool)
    (l : List (Nat × α)) (e : Nat × α) (rest : List (Nat × α))
    (h : popFirstComplete complete l = some (e, rest)) :
    l.Perm (e :: rest) := by
  induction l generalizing e rest with
  | nil => cases h
  | cons x t ih =>
    obtain ⟨c, r⟩ := x
    by_cases hc : complete c
    · rw [popFirstComplete, if_pos hc] at h
      simp only [Option.some.injEq, Prod.mk.injEq] at h
      obtain ⟨rfl, rfl⟩ := h
      exact List.Perm.refl _
    · rw [popFirstComplete, if_neg hc] at h
      rcases hrec : popFirstComplete complete t with _ | ⟨e', rest'⟩
      · rw [hrec] at h
        cases h
      · rw [hrec] at h
        simp only [Option.some.injEq, Prod.mk.injEq] at h
        obtain ⟨rfl, rfl⟩ := h
        exact ((ih _ _ hrec).cons (c, r)).trans (List.Perm.swap _ _ _)

/-- Each valid queue operation preserves the tracked id multiset. -/
theorem QStep_preserves_ids {α : Type} :
    ∀ {q q' : MPIQueue α}, QStep q q' → queueIds q' = queueIds q
  | _, _, .submitted q task child q' heq => by
    rcases hidle : q.idle with _ | ⟨c, rest⟩
    · rw [submit_eq_nil q task hidle] at heq
      cases heq
    · rw [submit_eq_cons q task c rest hidle] at heq
      simp only [Option.some.injEq, Prod.mk.injEq] at heq
      obtain ⟨rfl, rfl⟩ := heq
      unfold queueIds
      rw [hidle]
      simp only [List.map_append, List.map_cons, List.map_nil,
        Multiset.coe_add]
      refine Multiset.coe_eq_coe.mpr ?_
      have h1 : rest ++ (q.busy.map Prod.fst ++ [c]) =
          (rest ++ q.busy.map Prod.fst) ++ [c] :=
        (List.append_assoc rest (q.busy.map Prod.fst) [c]).symm
      rw [h1]
      exact List.perm_append_singleton c (rest ++ q.busy.map Prod.fst)
  | _, _, .collected q complete recv r q' heq => by
    rcases hpop : popFirstComplete complete q.busy with _ | ⟨e, rest⟩
    · rw [collect_one_eq_none q complete recv hpop] at heq
      cases heq
    · rw [collect_one_eq_some q complete recv e rest hpop] at heq
      simp only [Option.some.injEq, Prod.mk.injEq] at heq
      obtain ⟨-, rfl⟩ := heq
      have hperm : (q.busy.map Prod.fst).Perm (e.1 :: rest.map Prod.fst) :=
        (popFirstComplete_perm complete q.busy e rest hpop).map Prod.fst
      unfold queueIds
      rw [Multiset.coe_eq_coe.mpr hperm]
      simp only [Multiset.coe_add]
      rw [List.append_assoc, List.singleton_append]

end WorkQueue

section ClaimC7

/-- Claim C7: after any valid sequence of submit/collect_one calls on a
queue initialized with workers 1..n (submit only invoked while idle is
non-empty), the worker ids held in idle together with those held in busy
form exactly the full worker-id multiset, each id exactly once. -/
theorem C7_queue_partition {α : Type} (n : Nat) (q : MPIQueue α)
    (h : QReach (initQueue α n) q) :
    queueIds q = (List.range' 1 n : Multiset Nat) := by
  induction h with
  | refl => simp [queueIds, initQueue]
  | step _ hs ih => rw [QStep_preserves_ids hs, ih]

/-- The queue state after submitting task 100 to a fresh two-worker
queue: worker 1 busy, worker 2 idle. -/
def C7q1 : MPIQueue Nat :=
  { busy := [(1, 100)], idle := [2], n_children := 2 }

/-- Witness for C7_queue_partition: one concrete submit on a two-worker
queue keeps the id multiset equal to {1, 2}. -/
theorem C7_queue_partition_witness :
    QReach (initQueue Nat 2) C7q1 ∧
      queueIds C7q1 = (List.range' 1 2 : Multiset Nat) :=
  ⟨QReach.step (QReach.refl _)
      (QStep.submitted (initQueue Nat 2) 100 1 C7q1 rfl),
    C7_queue_partition 2 C7q1
      (QReach.step (QReach.refl _)
        (QStep.submitted (initQueue Nat 2) 100 1 C7q1 rfl))⟩

end ClaimC7

section ClaimC8

/-- The first-completion contract of the polling loop: if some entry of
the list is complete, the list splits as pre ++ (c, t) :: rest with no
entry of pre complete, (c, t) complete, and the loop pops exactly
(c, t). -/
theorem popFirstComplete_spec {α : Type} (complete : Nat → Bool)
    (l : List (Nat × α)) (h : ∃ e ∈ l, complete e.1 = true) :
    ∃ pre c t rest, l = pre ++ (c, t) :: rest ∧
      (∀ e ∈ pre, complete e.1 = false) ∧ complete c = true ∧
      popFirstComplete complete l = some ((c, t), pre ++ rest) := by
  induction l with
  | nil =>
    obtain ⟨e, he, -⟩ := h
    cases he
  | cons x t ih =>
    obtain ⟨cx, tx⟩ := x
    by_cases hc : complete cx = true
    · exact ⟨[], cx, tx, t, rfl, by simp, hc,
        by rw [popFirstComplete, if_pos hc]; rfl⟩
    · have h' : ∃ e ∈ t, complete e.1 = true := by
        obtain ⟨e, he, hce⟩ := h
        rcases List.mem_cons.mp he with rfl | het
        · exact absurd hce hc
        · exact ⟨e, het, hce⟩
      obtain ⟨pre, c, tt, rest, hsplit, hpre, hcc, hpop⟩ := ih h'
      refine ⟨(cx, tx) :: pre, c, tt, rest, by rw [List.cons_append, hsplit],
        ?_, hcc, ?_⟩
      · intro e he
        rcases List.mem_cons.mp he with rfl | hep
        · exact Bool.eq_false_iff.mpr hc
        · exact hpre e hep
      · rw [popFirstComplete, if_neg hc, hpop]
        rfl

/-- Claim C8 amended: whenever some busy worker is complete,
collect_one returns ((worker-id, request), result) — the popped busy
entry paired with the received result, not the bare (worker-id, result)
pair — for the first busy entry found complete, removes exactly that
entry from busy and appends the worker id to idle. -/
theorem C8_collect_first_complete {α β : Type} (q : MPIQueue α)
    (complete : Nat → Bool) (recv : Nat → β)
    (h : ∃ e ∈ q.busy, complete e.1 = true) :
    ∃ pre c t rest, q.busy = pre ++ (c, t) :: rest ∧
      (∀ e ∈ pre, complete e.1 = false) ∧ complete c = true ∧
      collect_one q complete recv =
        some (((c, t), recv c),
          { busy := pre ++ rest
            idle := q.idle ++ [c]
            n_children := q.n_children }) := by
  obtain ⟨pre, c, t, rest, hsplit, hpre, hcc, hpop⟩ :=
    popFirstComplete_spec complete q.busy h
  refine ⟨pre, c, t, rest, hsplit, hpre, hcc, ?_⟩
  rw [collect_one_eq_some q complete recv (c, t) (pre ++ rest) hpop]

/-- Scenario B's queue after submit(A) → worker 1 and submit(B) →
worker 2: both workers busy, none idle. -/
def C8q2 : MPIQueue Nat :=
  { busy := [(1, 100), (2, 200)], idle := [], n_children := 2 }

/-- Worker 2 has completed, worker 1 has not. -/
def C8complete : Nat → Bool := fun c => c == 2

/-- The result received from worker c. -/
def C8recv : Nat → Nat := fun c => 1000 * c

/-- Witness for C8_collect_first_complete at Scenario B: with worker 2
complete, collect_one pops exactly (2, 200) from busy, appends 2 to the
empty idle list and returns ((2, 200), 2000). -/
theorem C8_collect_first_complete_witness :
    (∃ e ∈ C8q2.busy, C8complete e.1 = true) ∧
    (∃ pre c t rest, C8q2.busy = pre ++ (c, t) :: rest ∧
      (∀ e ∈ pre, C8complete e.1 = false) ∧ C8complete c = true ∧
      collect_one C8q2 C8complete C8recv =
        some (((c, t), C8recv c),
          { busy := pre ++ rest
            idle := C8q2.idle ++ [c]
            n_children := C8q2.n_children })) :=
  ⟨⟨(2, 200), by decide, rfl⟩,
    C8_collect_first_complete C8q2 C8complete C8recv
      ⟨(2, 200), by decide, rfl⟩⟩

/-- A python value: an int or a tuple of python values (the shapes
relevant to collect_one's return). -/
inductive PyVal
  | int (n : Int)
  | tup (elems : List PyVal)

/-- The python value `ret, result` that collect_one returns, with
ret = busy.pop(i) = (child, request): the nested tuple
((child, request), result). -/
def pyOfCollectReturn (r : (Nat × Nat) × Nat) : PyVal :=
  .tup [.tup [.int r.1.1, .int r.1.2], .int r.2]

/-- Claim C8 counterexample, Scenario B concretely: submit(A) assigns
worker 1, submit(B) assigns worker 2 (idle now empty), a third submit
fails; after worker 2 completes, collect_one leaves idle == [2] as
claimed, but its return value is the nested tuple
((2, request_B), result_B) — not the claimed flat pair (2, result_B) —
because the code returns the popped busy entry, not the bare worker
id. -/
theorem C8_return_shape_cex :
    submit (initQueue Nat 2) 100 = some (1, C7q1) ∧
    submit C7q1 200 = some (2, C8q2) ∧
    submit C8q2 300 = none ∧
    (collect_one C8q2 C8complete C8recv).map (fun x => pyOfCollectReturn x.1)
      = some (PyVal.tup [PyVal.tup [PyVal.int 2, PyVal.int 200],
          PyVal.int 2000]) ∧
    (collect_one C8q2 C8complete C8recv).map (fun x => x.2.idle)
      = some [2] ∧
    PyVal.tup [PyVal.tup [PyVal.int 2, PyVal.int 200], PyVal.int 2000] ≠
      PyVal.tup [PyVal.int 2, PyVal.int 2000] := by
  refine ⟨rfl, rfl, rfl, rfl, rfl, ?_⟩
  intro h
  simp only [PyVal.tup.injEq, List.cons.injEq] at h
  exact PyVal.noConfusion h.1

end ClaimC8

end JadesForce
